import Mathlib

/-!
Verification development for the S3 bucket-policy reconciliation engine
(source: functions/src/index.ts).  The TypeScript source is shallowly
embedded: pure functions become Lean functions, the AWS calls become
explicit inputs (a `World` record) and the driver returns the trace of
calls it issued together with its outcome.
-/

namespace S3PolicySync

/-- Mirrors `POLICY_SID = "DeploymentAccess"` in index.ts. -/
def POLICY_SID : String := "DeploymentAccess"

/-- Mirrors the TypeScript union type `string | string[]` used by the
`Principal.AWS`, `Action` and `Resource` fields of a policy statement. -/
inductive StrOrArr where
  | str : String → StrOrArr
  | arr : List String → StrOrArr
deriving DecidableEq

/-- Mirrors the TS union type `"Allow" | "Deny"`. -/
inductive Effect where
  | Allow
  | Deny
deriving DecidableEq

/-- Mirrors the `Principal` field of `S3BucketPolicyStatement`:
`{ Service?: string; AWS?: string | string[] }`. -/
structure Principal where
  Service : Option String
  AWS : Option StrOrArr
deriving DecidableEq

/-- Mirrors interface `S3BucketPolicyStatement` of index.ts.  The
`Condition?: Record<string, any>` field is opaque pass-through data the
engine never inspects; it is modelled as an optional opaque string. -/
structure S3BucketPolicyStatement where
  Sid : Option String
  Effect : Effect
  Principal : Principal
  Action : StrOrArr
  Resource : StrOrArr
  Condition : Option String
deriving DecidableEq

/-- Mirrors interface `S3BucketPolicy` of index.ts
(`Version: string; Id?: string; Statement: S3BucketPolicyStatement[]`).
The `extra` field models any further top-level fields a JavaScript object
of this interface may carry at runtime; the `...currentPolicy` object
spread in `updateBucketPolicy` copies them verbatim. -/
structure S3BucketPolicy where
  Version : String
  Id : Option String
  Statement : List S3BucketPolicyStatement
  extra : List (String × String)
deriving DecidableEq

/-- The fixed `Action` list of the managed statement, exactly as written
in `updateBucketPolicy` in index.ts. -/
def managedActions : List String :=
  [ "s3:GetObject"
  , "s3:GetObjectTagging"
  , "s3:GetObjectAttributes"
  , "s3:GetObjectVersion"
  , "s3:GetObjectVersionTagging"
  , "s3:GetObjectVersionAttributes"
  , "s3:GetObjectVersionAcl"
  , "s3:GetObjectAcl" ]

/-- The ARN template applied to each account id:
the template literal `arn:aws:iam::$\x7baccountId\x7d:root` of index.ts. -/
def accountArn (accountId : String) : String :=
  "arn:aws:iam::" ++ accountId ++ ":root"

/-- The `updatedStatement` object literal built inside `updateBucketPolicy`
of index.ts. -/
def updatedStatement (bucket : String) (accountIds : List String) :
    S3BucketPolicyStatement :=
  { Sid := some POLICY_SID
  , Effect := .Allow
  , Principal := { Service := none
                 , AWS := some (.arr (accountIds.map accountArn)) }
  , Action := .arr managedActions
  , Resource := .str ("arn:aws:s3:::" ++ bucket ++ "/*")
  , Condition := none }

/-- The filter predicate `(statement) => statement.Sid !== POLICY_SID`
used by `updateBucketPolicy` (a statement with no Sid passes, since in
JavaScript `undefined !== "DeploymentAccess"`). -/
def isForeign (s : S3BucketPolicyStatement) : Bool :=
  decide (s.Sid ≠ some POLICY_SID)

/-- Mirrors `updateBucketPolicy(bucket, currentPolicy, accountIds)` of
index.ts: keep the statements whose Sid differs from the managed Sid,
append the freshly built managed statement, and spread every other
top-level field of `currentPolicy` into the result unchanged. -/
def updateBucketPolicy (bucket : String) (currentPolicy : S3BucketPolicy)
    (accountIds : List String) : S3BucketPolicy :=
  let otherStatements := currentPolicy.Statement.filter isForeign
  let statements := otherStatements ++ [updatedStatement bucket accountIds]
  { currentPolicy with Statement := statements }

/-- Mirrors interface `Account` of index.ts. -/
structure Account where
  ID : String
  Name : String
  Enabled : Bool
  RoleName : String
  Environment : List String
  AdminOnly : Option Bool
  ExternalID : Option String
deriving DecidableEq

/-- Mirrors interface `Customer` of index.ts. -/
structure Customer where
  ID : String
  Name : String
  Created : String
  Active : Bool
  Accounts : List Account
  Logo : Option String
deriving DecidableEq

/-- JavaScript `Array.from(new Set(xs))` on a list of strings: keeps the
first occurrence of each value, in insertion order. -/
def jsSetDedup (l : List String) : List String :=
  l.foldl (fun acc x => if x ∈ acc then acc else acc ++ [x]) []

/-- Mirrors the pure core of `getAccountIdsFromDynamoDB` of index.ts,
with the records returned by the DynamoDB scan (`Items ?? []`) made an
explicit argument: flatten every record's `Accounts` into their `ID`s and
deduplicate them through a JavaScript `Set`. -/
def getAccountIdsFromDynamoDB (records : List Customer) : List String :=
  jsSetDedup (records.flatMap (fun item => item.Accounts.map (fun account => account.ID)))

/-- The runtime shape of the object `JSON.parse(Policy || "\x7b\x7d")`
is cast to in `getCurrentBucketPolicy` of index.ts: the `as S3BucketPolicy`
cast is unchecked, so every field — `Statement` included — may be absent
at runtime. -/
structure RawPolicy where
  Version : Option String
  Id : Option String
  Statement : Option (List S3BucketPolicyStatement)
  extra : List (String × String)
deriving DecidableEq

/-- The error value a failed S3 call throws, as far as index.ts inspects
it: `getCurrentBucketPolicy` only looks at the optional `Code` field; the
rest of the thrown object is opaque (modelled as a string). -/
structure S3Error where
  Code : Option String
  rest : String
deriving DecidableEq

/-- The policy document `\x7b Statement: [], Version: "2012-10-17" \x7d`
returned by `getCurrentBucketPolicy` on a `NoSuchBucketPolicy` error. -/
def noPolicyDefault : RawPolicy :=
  { Version := some "2012-10-17", Id := none, Statement := some [], extra := [] }

/-- The argument of `JSON.parse` in `getCurrentBucketPolicy`:
`Policy || "\x7b\x7d"` — JavaScript `||` replaces both an absent `Policy`
field and an empty string (falsy) by the literal `"\x7b\x7d"`. -/
def policyOrEmptyObject (policy : Option String) : String :=
  match policy with
  | none => "\x7b\x7d"
  | some s => if s = "" then "\x7b\x7d" else s

/-- Mirrors `getCurrentBucketPolicy(client, bucket)` of index.ts.  The
S3 `GetBucketPolicyCommand` call is made an explicit argument `fetched`
(either the optional `Policy` string of a successful response, or the
thrown error), and `JSON.parse` is an explicit argument `parse`.  On
success the body is parsed (with `"\x7b\x7d"` substituted for an absent or
empty body); a thrown error with `Code === "NoSuchBucketPolicy"` is
recovered as the empty default document; every other error is re-thrown. -/
def getCurrentBucketPolicy (parse : String → RawPolicy)
    (fetched : Except S3Error (Option String)) : Except S3Error RawPolicy :=
  match fetched with
  | .ok policy => .ok (parse (policyOrEmptyObject policy))
  | .error e =>
      if e.Code = some "NoSuchBucketPolicy" then .ok noPolicyDefault
      else .error e

/-- A JavaScript runtime exception (here only the `TypeError` raised by
reading `.filter` of `undefined`). -/
inductive JsError where
  | typeError : String → JsError
deriving DecidableEq

/-- Runtime semantics of the same `updateBucketPolicy` source lines when
applied to a raw parsed object: `currentPolicy.Statement.filter(...)`
throws a `TypeError` when `Statement` is absent (`undefined.filter`);
otherwise it behaves like `updateBucketPolicy`, the object spread copying
the remaining fields unchanged. -/
def updateBucketPolicyRaw (bucket : String) (currentPolicy : RawPolicy)
    (accountIds : List String) : Except JsError RawPolicy :=
  match currentPolicy.Statement with
  | none => .error (.typeError "Cannot read properties of undefined (reading filter)")
  | some stmts =>
      .ok { currentPolicy with
            Statement := some (stmts.filter isForeign ++ [updatedStatement bucket accountIds]) }

/-- Mirrors `listLambdaBundleBuckets` of index.ts, with the
`ListBucketsCommand` response (`Buckets ?? []`, each bucket's `Name`
optional) made an explicit argument: replace a missing name by `""`
(`bucket.Name ?? ""`) and keep the names starting with the managed
naming-convention literal. -/
def listLambdaBundleBuckets (bucketList : List (Option String)) : List String :=
  (bucketList.map (fun bucket => bucket.getD "")).filter
    (fun bucket => bucket.startsWith "some-prefix-lambdabundles-")

/-- The region computed by the handler of index.ts for each bucket:
`const region = bucket.slice(25)`. -/
def handlerRegion (bucket : String) : String :=
  bucket.drop 25

/-- Modelled from the spec (§4.2): the region token the spec asks for,
obtained by "stripping the fixed-length prefix from the name" — i.e.
dropping all 26 characters of the managed naming-convention literal.
Stated only to compare with `handlerRegion`, the code's computation. -/
def specRegionToken (bucket : String) : String :=
  bucket.drop ("some-prefix-lambdabundles-".length)

/-- One AWS call issued by the handler of index.ts, in issue order. -/
inductive Op where
  | scanRegistry
  | listBuckets
  | getPolicy (bucket : String)
  | putPolicy (bucket : String) (region : String) (policy : RawPolicy)
deriving DecidableEq

/-- Any error the handler's try block can end in. -/
inductive RunError where
  | registry (e : S3Error)
  | s3 (e : S3Error)
  | js (e : JsError)
deriving DecidableEq

/-- The external world the handler interacts with: the outcome of the
DynamoDB scan, the `ListBucketsCommand` response, and per bucket the
outcome of `GetBucketPolicyCommand` and of `PutBucketPolicyCommand`;
`parse` is `JSON.parse` restricted to policy bodies. -/
structure World where
  scanResult : Except S3Error (List Customer)
  bucketList : List (Option String)
  getPolicyResult : String → Except S3Error (Option String)
  putPolicyResult : String → Except S3Error Unit
  parse : String → RawPolicy

/-- The per-bucket loop of the handler of index.ts: for each bucket in
order, derive the region (`bucket.slice(25)`), fetch the current policy,
merge, and write the result back; the first thrown error aborts the rest
of the loop.  Returns the calls issued and the error, if one was thrown. -/
def runBuckets (w : World) (accountIds : List String) :
    List String → List Op × Option RunError
  | [] => ([], none)
  | bucket :: rest =>
      let region := handlerRegion bucket
      match getCurrentBucketPolicy w.parse (w.getPolicyResult bucket) with
      | .error e => ([.getPolicy bucket], some (.s3 e))
      | .ok currentPolicy =>
          match updateBucketPolicyRaw bucket currentPolicy accountIds with
          | .error e => ([.getPolicy bucket], some (.js e))
          | .ok updatedPolicy =>
              match w.putPolicyResult bucket with
              | .error e =>
                  ([.getPolicy bucket, .putPolicy bucket region updatedPolicy], some (.s3 e))
              | .ok _ =>
                  let tail := runBuckets w accountIds rest
                  (.getPolicy bucket :: .putPolicy bucket region updatedPolicy :: tail.1,
                   tail.2)

/-- Mirrors the exported handler of index.ts: resolve the account ids
from the registry first (a failure there propagates out of the try block
at once), then list the managed buckets, then run the per-bucket loop.
Returns the trace of AWS calls issued and the error the invocation was
rejected with, if any. -/
def handler (w : World) : List Op × Option RunError :=
  match w.scanResult with
  | .error e => ([.scanRegistry], some (.registry e))
  | .ok records =>
      let accountIds := getAccountIdsFromDynamoDB records
      let buckets := listLambdaBundleBuckets w.bucketList
      let rest := runBuckets w accountIds buckets
      (.scanRegistry :: .listBuckets :: rest.1, rest.2)

/-! Concrete sample data, used by the witness theorems. -/

/-- A foreign statement (Sid "Other"), as in the spec's scenario. -/
def sampleOtherStatement : S3BucketPolicyStatement :=
  { Sid := some "Other"
  , Effect := .Deny
  , Principal := { Service := some "s3.amazonaws.com", AWS := none }
  , Action := .str "s3:PutObject"
  , Resource := .str "arn:aws:s3:::example/*"
  , Condition := some "cond" }

/-- A policy document holding one foreign statement. -/
def sampleOtherPolicy : S3BucketPolicy :=
  { Version := "2012-10-17"
  , Id := some "policy-id"
  , Statement := [sampleOtherStatement]
  , extra := [("Owner", "team")] }

/-- An account sub-record carrying a given id; the remaining fields are
opaque to the engine. -/
def accountRecord (id : String) : Account :=
  { ID := id, Name := "acct", Enabled := true, RoleName := "role"
  , Environment := [], AdminOnly := none, ExternalID := none }

/-- First customer of the spec's scenario: accounts ["111111111111"]. -/
def customerOne : Customer :=
  { ID := "c1", Name := "one", Created := "2024-01-01", Active := true
  , Accounts := [accountRecord "111111111111"], Logo := none }

/-- Second customer of the spec's scenario:
accounts ["222222222222", "111111111111"]. -/
def customerTwo : Customer :=
  { ID := "c2", Name := "two", Created := "2024-01-02", Active := true
  , Accounts := [accountRecord "222222222222", accountRecord "111111111111"]
  , Logo := none }

/-- The runtime shape of the empty JSON object: no field present. -/
def emptyJsObject : RawPolicy :=
  { Version := none, Id := none, Statement := none, extra := [] }

/-! Helper lemmas shared by the claims. -/

/-- The managed statement fails the foreign-statement filter. -/
lemma isForeign_updatedStatement (bucket : String) (accountIds : List String) :
    isForeign (updatedStatement bucket accountIds) = false := by
  simp [isForeign, updatedStatement]

/-- The ARN template is injective: the embedded account id can be decoded
back from the principal reference. -/
lemma accountArn_injective (a b : String) (h : accountArn a = accountArn b) : a = b := by
  have hd := congrArg String.data h
  simp only [accountArn, String.data_append, List.append_cancel_left_eq,
    List.append_cancel_right_eq] at hd
  exact String.ext hd

/-- Filtering the foreign statements is idempotent, and drops the managed
statement appended at the end. -/
lemma filter_foreign_append (l : List S3BucketPolicyStatement) (bucket : String)
    (accountIds : List String) :
    (l.filter isForeign ++ [updatedStatement bucket accountIds]).filter isForeign
      = l.filter isForeign := by
  simp [List.filter_append, isForeign_updatedStatement, List.filter_filter]

/-- C1: for every policy document, every account-id list and every bucket
name, the merged statement list is exactly the statements of the input
whose Sid differs from the managed Sid (those with no Sid included), each
unmodified and in their original relative order, followed by the new
managed statement appended at the end. -/
theorem claim_C1_foreign_preservation (current : S3BucketPolicy)
    (accounts : List String) (bucket : String) :
    ∃ foreign,
      (updateBucketPolicy bucket current accounts).Statement
        = foreign ++ [updatedStatement bucket accounts]
      ∧ foreign.Sublist current.Statement
      ∧ (∀ s ∈ foreign, s.Sid ≠ some POLICY_SID)
      ∧ (∀ s ∈ current.Statement, s.Sid ≠ some POLICY_SID → s ∈ foreign)
      ∧ foreign = current.Statement.filter isForeign := by
  refine ⟨current.Statement.filter isForeign, rfl, List.filter_sublist _, ?_, ?_, rfl⟩
  · intro s hs
    have hp := (List.mem_filter.mp hs).2
    simpa [isForeign] using hp
  · intro s hs h
    exact List.mem_filter.mpr ⟨hs, by simpa [isForeign] using h⟩

/-- Witness for C1 at a concrete policy with one foreign statement. -/
theorem claim_C1_foreign_preservation_witness :
    ∃ foreign,
      (updateBucketPolicy "b" sampleOtherPolicy ["111111111111"]).Statement
        = foreign ++ [updatedStatement "b" ["111111111111"]]
      ∧ foreign.Sublist sampleOtherPolicy.Statement
      ∧ (∀ s ∈ foreign, s.Sid ≠ some POLICY_SID)
      ∧ (∀ s ∈ sampleOtherPolicy.Statement, s.Sid ≠ some POLICY_SID → s ∈ foreign)
      ∧ foreign = sampleOtherPolicy.Statement.filter isForeign :=
  claim_C1_foreign_preservation sampleOtherPolicy ["111111111111"] "b"

/-- C2: every merged policy contains exactly one statement carrying the
managed Sid, however many (zero, one or several) the input carried. -/
theorem claim_C2_single_managed_statement (current : S3BucketPolicy)
    (accounts : List String) (bucket : String) :
    ((updateBucketPolicy bucket current accounts).Statement.countP
      (fun s => decide (s.Sid = some POLICY_SID))) = 1 := by
  unfold updateBucketPolicy
  simp only [List.countP_append]
  have h0 : (current.Statement.filter isForeign).countP
      (fun s => decide (s.Sid = some POLICY_SID)) = 0 := by
    refine List.countP_eq_zero.mpr ?_
    intro s hs
    have hp := (List.mem_filter.mp hs).2
    simp only [isForeign, decide_not, Bool.not_eq_true'] at hp
    simpa using hp
  simp [h0, updatedStatement]

/-- C3: the managed statement appended by the merge has Effect Allow, the
managed Sid, the single bucket-scoped wildcard Resource, exactly the eight
fixed read-only Action strings, and a Principal.AWS list covering exactly
the given account set through the ARN template — emitted even when the
account list is empty. -/
theorem claim_C3_managed_statement_shape (current : S3BucketPolicy)
    (accounts : List String) (bucket : String) :
    ∃ m, (updateBucketPolicy bucket current accounts).Statement.getLast? = some m
      ∧ m.Effect = Effect.Allow
      ∧ m.Sid = some "DeploymentAccess"
      ∧ m.Resource = StrOrArr.str ("arn:aws:s3:::" ++ bucket ++ "/*")
      ∧ m.Action = StrOrArr.arr
          [ "s3:GetObject", "s3:GetObjectTagging", "s3:GetObjectAttributes"
          , "s3:GetObjectVersion", "s3:GetObjectVersionTagging"
          , "s3:GetObjectVersionAttributes", "s3:GetObjectVersionAcl"
          , "s3:GetObjectAcl" ]
      ∧ m.Principal.AWS = some (StrOrArr.arr (accounts.map accountArn))
      ∧ (∀ id, accountArn id ∈ accounts.map accountArn ↔ id ∈ accounts)
      ∧ (accounts = [] → m.Principal.AWS = some (StrOrArr.arr [])) := by
  refine ⟨updatedStatement bucket accounts, ?_, rfl, rfl, rfl, rfl, rfl, ?_, ?_⟩
  · unfold updateBucketPolicy
    simp [isForeign_updatedStatement]
  · intro id
    constructor
    · intro h
      rcases List.mem_map.mp h with ⟨id', hid', harn⟩
      exact (accountArn_injective id' id harn) ▸ hid'
    · intro h
      exact List.mem_map_of_mem accountArn h
  · intro h
    subst h
    rfl

/-- Witness for C3 at a concrete policy, bucket and two account ids. -/
theorem claim_C3_managed_statement_shape_witness :
    ∃ m, (updateBucketPolicy "some-prefix-lambdabundles-eu-west-2" sampleOtherPolicy
            ["111111111111", "222222222222"]).Statement.getLast? = some m
      ∧ m.Effect = Effect.Allow
      ∧ m.Sid = some "DeploymentAccess"
      ∧ m.Resource = StrOrArr.str "arn:aws:s3:::some-prefix-lambdabundles-eu-west-2/*"
      ∧ m.Action = StrOrArr.arr
          [ "s3:GetObject", "s3:GetObjectTagging", "s3:GetObjectAttributes"
          , "s3:GetObjectVersion", "s3:GetObjectVersionTagging"
          , "s3:GetObjectVersionAttributes", "s3:GetObjectVersionAcl"
          , "s3:GetObjectAcl" ]
      ∧ m.Principal.AWS = some (StrOrArr.arr
          ["arn:aws:iam::111111111111:root", "arn:aws:iam::222222222222:root"])
      ∧ (∀ id, accountArn id ∈ (["111111111111", "222222222222"] : List String).map accountArn
            ↔ id ∈ (["111111111111", "222222222222"] : List String))
      ∧ ((["111111111111", "222222222222"] : List String) = []
            → m.Principal.AWS = some (StrOrArr.arr [])) := by
  have h := claim_C3_managed_statement_shape sampleOtherPolicy
    ["111111111111", "222222222222"] "some-prefix-lambdabundles-eu-west-2"
  rcases h with ⟨m, h1, h2, h3, h4, h5, h6, h7, h8⟩
  exact ⟨m, h1, h2, h3, by simpa using h4, h5, by simpa [accountArn] using h6, h7, h8⟩

/-- C4: the merge is idempotent — merging an already-merged document with
the same bucket and account list reproduces it exactly. -/
theorem claim_C4_idempotent (current : S3BucketPolicy) (accounts : List String)
    (bucket : String) :
    updateBucketPolicy bucket (updateBucketPolicy bucket current accounts) accounts
      = updateBucketPolicy bucket current accounts := by
  unfold updateBucketPolicy
  simp [List.filter_append, isForeign_updatedStatement, List.filter_filter]

/-- C5: the merge replaces only the Statement list; every other top-level
field of the input document (Version, Id, and any extra runtime field) is
copied into the output unchanged. -/
theorem claim_C5_frame (current : S3BucketPolicy) (accounts : List String)
    (bucket : String) :
    (updateBucketPolicy bucket current accounts).Version = current.Version
    ∧ (updateBucketPolicy bucket current accounts).Id = current.Id
    ∧ (updateBucketPolicy bucket current accounts).extra = current.extra :=
  ⟨rfl, rfl, rfl⟩

set_option maxRecDepth 8192 in
/-- C6: evaluating the code at the failing input.  The handler computes
the region as the bucket name with its first 25 characters removed, but
the managed naming-convention literal is 26 characters long, so for the
bucket "some-prefix-lambdabundles-eu-west-2" the code derives the region
"-eu-west-2" — the prefix's trailing hyphen is kept — while stripping the
full fixed-length prefix, as specified, yields "eu-west-2". -/
theorem claim_C6_region_off_by_one :
    handlerRegion "some-prefix-lambdabundles-eu-west-2" = "-eu-west-2"
    ∧ handlerRegion "some-prefix-lambdabundles-eu-west-2" ≠ "eu-west-2"
    ∧ "some-prefix-lambdabundles-".length = 26
    ∧ specRegionToken "some-prefix-lambdabundles-eu-west-2" = "eu-west-2" := by
  refine ⟨?_, ?_, ?_, ?_⟩ <;> decide

/-- Membership in the JavaScript-Set fold: an element is in the result of
the fold exactly when it is in the accumulator or in the remaining list. -/
lemma jsSetDedup_fold_mem (l : List String) (acc : List String) (a : String) :
    a ∈ l.foldl (fun acc x => if x ∈ acc then acc else acc ++ [x]) acc
      ↔ a ∈ acc ∨ a ∈ l := by
  induction l generalizing acc with
  | nil => simp
  | cons x xs ih =>
      simp only [List.foldl_cons]
      by_cases hx : x ∈ acc
      · rw [if_pos hx, ih]
        constructor
        · rintro (h | h)
          · exact Or.inl h
          · exact Or.inr (List.mem_cons_of_mem _ h)
        · rintro (h | h)
          · exact Or.inl h
          · rcases List.mem_cons.mp h with rfl | h
            · exact Or.inl hx
            · exact Or.inr h
      · rw [if_neg hx, ih]
        simp only [List.mem_append, List.mem_singleton, List.mem_cons]
        tauto

/-- The JavaScript-Set fold never introduces a duplicate. -/
lemma jsSetDedup_fold_nodup (l : List String) (acc : List String) (h : acc.Nodup) :
    (l.foldl (fun acc x => if x ∈ acc then acc else acc ++ [x]) acc).Nodup := by
  induction l generalizing acc with
  | nil => simpa using h
  | cons x xs ih =>
      simp only [List.foldl_cons]
      by_cases hx : x ∈ acc
      · rw [if_pos hx]
        exact ih acc h
      · rw [if_neg hx]
        refine ih (acc ++ [x]) ?_
        simp [List.nodup_append, h, hx]

/-- C7: the account-set resolver returns the ids of all records' Accounts
lists, deduplicated by value (no duplicates, and an id is in the result
exactly when some record's account carries it), returns the empty list on
an empty registry, and resolves the spec's two-customer scenario to the
two-element set. -/
theorem claim_C7_account_resolver (records : List Customer) :
    (getAccountIdsFromDynamoDB records).Nodup
    ∧ (∀ id, id ∈ getAccountIdsFromDynamoDB records
        ↔ ∃ c ∈ records, ∃ a ∈ c.Accounts, a.ID = id)
    ∧ getAccountIdsFromDynamoDB [] = []
    ∧ getAccountIdsFromDynamoDB [customerOne, customerTwo]
        = ["111111111111", "222222222222"] := by
  refine ⟨jsSetDedup_fold_nodup _ [] List.nodup_nil, ?_, rfl, by decide⟩
  intro id
  unfold getAccountIdsFromDynamoDB jsSetDedup
  rw [jsSetDedup_fold_mem]
  simp [List.mem_flatMap]

/-- Witness for C7 at the spec's two-customer registry. -/
theorem claim_C7_account_resolver_witness :
    (getAccountIdsFromDynamoDB [customerOne, customerTwo]).Nodup
    ∧ ("222222222222" ∈ getAccountIdsFromDynamoDB [customerOne, customerTwo]
        ↔ ∃ c ∈ [customerOne, customerTwo], ∃ a ∈ c.Accounts, a.ID = "222222222222")
    ∧ getAccountIdsFromDynamoDB [customerOne, customerTwo]
        = ["111111111111", "222222222222"] := by
  have h := claim_C7_account_resolver [customerOne, customerTwo]
  exact ⟨h.1, h.2.1 "222222222222", h.2.2.2⟩

/-- C8: on a thrown fetch error, the policy fetch recovers the empty
default document exactly when the error's Code is "NoSuchBucketPolicy",
re-raises every other error unchanged, and the merge proceeds from that
default document as from any other input, producing the managed statement
alone. -/
theorem claim_C8_no_policy_default (parse : String → RawPolicy) (e : S3Error) :
    (getCurrentBucketPolicy parse (.error e) = .ok noPolicyDefault
      ↔ e.Code = some "NoSuchBucketPolicy")
    ∧ (e.Code ≠ some "NoSuchBucketPolicy"
        → getCurrentBucketPolicy parse (.error e) = .error e)
    ∧ noPolicyDefault
        = { Version := some "2012-10-17", Id := none, Statement := some [], extra := [] }
    ∧ (∀ bucket accounts, updateBucketPolicyRaw bucket noPolicyDefault accounts
        = .ok { Version := some "2012-10-17", Id := none
              , Statement := some [updatedStatement bucket accounts], extra := [] }) := by
  refine ⟨?_, ?_, rfl, fun bucket accounts => rfl⟩
  · unfold getCurrentBucketPolicy
    by_cases hc : e.Code = some "NoSuchBucketPolicy"
    · simp [hc]
    · simp [hc]
  · intro hc
    unfold getCurrentBucketPolicy
    simp [hc]

/-- Witness for C8: a NoSuchBucketPolicy error is recovered as the
default document, an AccessDenied error is re-raised unchanged. -/
theorem claim_C8_no_policy_default_witness :
    getCurrentBucketPolicy (fun _ => emptyJsObject)
      (.error { Code := some "NoSuchBucketPolicy", rest := "" }) = .ok noPolicyDefault
    ∧ getCurrentBucketPolicy (fun _ => emptyJsObject)
        (.error { Code := some "AccessDenied", rest := "" })
        = .error { Code := some "AccessDenied", rest := "" } := by
  constructor
  · exact (claim_C8_no_policy_default (fun _ => emptyJsObject)
      { Code := some "NoSuchBucketPolicy", rest := "" }).1.mpr rfl
  · exact (claim_C8_no_policy_default (fun _ => emptyJsObject)
      { Code := some "AccessDenied", rest := "" }).2.1 (by decide)

/-- The per-bucket loop never issues a registry scan. -/
lemma runBuckets_no_scan (w : World) (accountIds : List String)
    (buckets : List String) :
    Op.scanRegistry ∉ (runBuckets w accountIds buckets).1 := by
  induction buckets with
  | nil => simp [runBuckets]
  | cons bucket rest ih =>
      unfold runBuckets
      cases hg : getCurrentBucketPolicy w.parse (w.getPolicyResult bucket) with
      | error e => simp
      | ok currentPolicy =>
          cases hu : updateBucketPolicyRaw bucket currentPolicy accountIds with
          | error e => simp [hu]
          | ok updatedPolicy =>
              cases hp : w.putPolicyResult bucket with
              | error e => simp [hu, hp]
              | ok u => simpa [hu, hp] using ih

/-- C9: in every run of the handler the registry scan is issued exactly
once and is the first call issued — before any bucket's policy is read or
written; and when the scan fails, the run aborts with that error and the
scan is the only call issued, in particular no put-policy call is made. -/
theorem claim_C9_scan_first_abort (w : World) :
    (handler w).1.count Op.scanRegistry = 1
    ∧ (handler w).1.head? = some Op.scanRegistry
    ∧ (∀ e, w.scanResult = .error e →
        (handler w).1 = [Op.scanRegistry]
        ∧ (handler w).2 = some (.registry e)
        ∧ ∀ bucket region policy, Op.putPolicy bucket region policy ∉ (handler w).1) := by
  refine ⟨?_, ?_, ?_⟩
  · unfold handler
    cases hs : w.scanResult with
    | error e => rfl
    | ok records =>
        have hns := runBuckets_no_scan w (getAccountIdsFromDynamoDB records)
          (listLambdaBundleBuckets w.bucketList)
        simp [List.count_cons, List.count_eq_zero.mpr hns]
  · unfold handler
    cases w.scanResult with
    | error e => rfl
    | ok records => rfl
  · intro e he
    unfold handler
    rw [he]
    exact ⟨rfl, rfl, by simp⟩

/-- Witness for C9 at a concrete world whose registry scan fails. -/
theorem claim_C9_scan_first_abort_witness :
    (handler { scanResult := .error { Code := none, rest := "timeout" }
             , bucketList := [some "some-prefix-lambdabundles-eu-west-2"]
             , getPolicyResult := fun _ => .ok none
             , putPolicyResult := fun _ => .ok ()
             , parse := fun _ => emptyJsObject }).1 = [Op.scanRegistry]
    ∧ (handler { scanResult := .error { Code := none, rest := "timeout" }
               , bucketList := [some "some-prefix-lambdabundles-eu-west-2"]
               , getPolicyResult := fun _ => .ok none
               , putPolicyResult := fun _ => .ok ()
               , parse := fun _ => emptyJsObject }).2
        = some (.registry { Code := none, rest := "timeout" }) := by
  have h := (claim_C9_scan_first_abort
    { scanResult := .error { Code := none, rest := "timeout" }
    , bucketList := [some "some-prefix-lambdabundles-eu-west-2"]
    , getPolicyResult := fun _ => .ok none
    , putPolicyResult := fun _ => .ok ()
    , parse := fun _ => emptyJsObject }).2.2
    { Code := none, rest := "timeout" } rfl
  exact ⟨h.1, h.2.1⟩

/-- C10: when the get-policy call succeeds but its Policy body is absent
or empty, the body parsed is the empty JSON object, the fetch returns it
as a document whose Statement field is absent, and the merge applied to
it throws a TypeError (reading .filter of undefined) instead of treating
it as an empty statement list. -/
theorem claim_C10_merge_not_total (parse : String → RawPolicy)
    (hparse : parse "\x7b\x7d" = emptyJsObject)
    (policy : Option String) (hpolicy : policy = none ∨ policy = some "")
    (bucket : String) (accounts : List String) :
    getCurrentBucketPolicy parse (.ok policy) = .ok emptyJsObject
    ∧ emptyJsObject.Statement = none
    ∧ updateBucketPolicyRaw bucket emptyJsObject accounts
        = .error (.typeError "Cannot read properties of undefined (reading filter)") := by
  refine ⟨?_, rfl, rfl⟩
  rcases hpolicy with rfl | rfl
  · simp [getCurrentBucketPolicy, policyOrEmptyObject, hparse]
  · simp [getCurrentBucketPolicy, policyOrEmptyObject, hparse]

/-- Witness for C10: a world whose get-policy call succeeds with no
Policy string at all. -/
theorem claim_C10_merge_not_total_witness :
    getCurrentBucketPolicy (fun _ => emptyJsObject) (.ok none) = .ok emptyJsObject
    ∧ emptyJsObject.Statement = none
    ∧ updateBucketPolicyRaw "some-prefix-lambdabundles-eu-west-2" emptyJsObject
        ["111111111111"]
        = .error (.typeError "Cannot read properties of undefined (reading filter)") :=
  claim_C10_merge_not_total (fun _ => emptyJsObject) rfl none (Or.inl rfl)
    "some-prefix-lambdabundles-eu-west-2" ["111111111111"]

end S3PolicySync
